import Mathlib

/-!
Verification of the StellaNow TypeScript SDK delivery pipeline.

Shallow embedding of the delivery-queue core of the SDK:
the FIFO message source with in-flight tracking
(StellaNowSDK/src/lib/core/message-source.ts), the event/message data
model (src/lib/core/events.ts, messages.ts), the SDK event loop
(stella-now-sdk.ts), the observer-list signal
(src/lib/core/stellanow-signal.ts), the MQTT sink reconnection monitor
(sinks/mqtt/mqtt-sink.ts) and the OIDC authentication strategy
(sinks/mqtt/auth-strategies/oidc-mqtt-auth-strategy.ts).

JavaScript Map objects are modelled as insertion-ordered association
lists with the standard operations (set replaces the entry of an
existing key in place, otherwise appends; delete removes the entry;
get finds the entry).  Asynchronous effects (publish outcomes, network
grant outcomes) are modelled as boolean or Except-valued oracles passed
in as parameters.
-/

namespace StellaNow

/-- Model of the JavaScript Map.set operation on an insertion-ordered
association list: replaces the value of an existing key in place,
otherwise appends the new entry at the end. -/
def mapSet {α : Type} : List (String × α) → String → α → List (String × α)
  | [], k, v => [(k, v)]
  | p :: m, k, v => if p.1 == k then (k, v) :: m else p :: mapSet m k v

/-- Model of Map.delete: removes the entry with the given key, if
present (a Map holds at most one entry per key). -/
def mapDelete {α : Type} : List (String × α) → String → List (String × α)
  | [], _ => []
  | p :: m, k => if p.1 == k then m else p :: mapDelete m k

/-- Model of Map.get: the value stored under the key, if any. -/
def mapGet {α : Type} (m : List (String × α)) (k : String) : Option α :=
  (m.find? (fun p => p.1 == k)).map Prod.snd

/-- Entity reference from messages.ts (class EntityType): an
entity-type definition id paired with an entity id. -/
structure EntityType where
  entityTypeDefinitionId : String
  entityId : String
  deriving DecidableEq, Repr

/-- Metadata of a wrapped message, from messages.ts (class
MessageMetadata).  The origin date is kept as its ISO-8601 string. -/
structure MessageMetadata where
  messageId : String
  messageOriginDateUtc : String
  eventTypeDefinitionId : String
  entityTypeIds : List EntityType
  deriving DecidableEq, Repr

/-- Base message from messages.ts (class StellaNowMessageBase).  The
field toJSONString stands for the JSON.stringify(this.toJSON()) result
of the concrete message subclass. -/
structure StellaNowMessageBase where
  eventTypeDefinitionId : String
  entityTypeIds : List EntityType
  toJSONString : String
  deriving DecidableEq, Repr

/-- Wrapped message from messages.ts (class StellaNowMessageWrapper). -/
structure StellaNowMessageWrapper where
  eventTypeDefinitionId : String
  metadata : MessageMetadata
  payload : String
  deriving DecidableEq, Repr

/-- Routing key of an event, from events.ts (class EventKey). -/
structure EventKey where
  organizationId : String
  projectId : String
  entityId : String
  eventTypeDefinitionId : String
  deriving DecidableEq, Repr

/-- Event wrapper from events.ts (class StellaNowEventWrapper): the
unit stored in the delivery queue. -/
structure StellaNowEventWrapper where
  eventKey : EventKey
  value : StellaNowMessageWrapper
  deriving DecidableEq, Repr

/-- Getter MessageId of StellaNowEventWrapper (events.ts): the message
id of the wrapped message. -/
def StellaNowEventWrapper.MessageId (e : StellaNowEventWrapper) : String :=
  e.value.metadata.messageId

/-- Project configuration from types (organization and project ids). -/
structure StellaNowProjectInfo where
  organizationId : String
  projectId : String
  deriving DecidableEq, Repr

/-- Errors thrown by the embedded code.  jsError models a plain
JavaScript Error; the remaining constructors model the typed exception
classes of core/exceptions.ts that the embedded paths raise. -/
inductive SdkError where
  | jsError (message : String)
  | discoveryDocumentError (message : String)
  | oidcAuthenticationError (message : String)
  | tokenValidationError (message : String)
  deriving DecidableEq, Repr

/-- Constructor StellaNowMessageWrapper.fromMessage (messages.ts): wraps
a base message, assigning the freshly generated message id (source:
crypto.randomUUID()) and the current UTC timestamp, and storing the
serialized payload. -/
def StellaNowMessageWrapper.fromMessage (freshId nowUtc : String)
    (m : StellaNowMessageBase) : StellaNowMessageWrapper :=
  { eventTypeDefinitionId := m.eventTypeDefinitionId
    metadata :=
      { messageId := freshId
        messageOriginDateUtc := nowUtc
        eventTypeDefinitionId := m.eventTypeDefinitionId
        entityTypeIds := m.entityTypeIds }
    payload := m.toJSONString }

/-- Static method StellaNowEventWrapper.fromWrapper (events.ts, lines
99-116): derives the EventKey from the first entity reference; throws a
plain Error when the entityTypeIds list is empty. -/
def StellaNowEventWrapper.fromWrapper (projectInfo : StellaNowProjectInfo)
    (value : StellaNowMessageWrapper) : Except SdkError StellaNowEventWrapper :=
  match value.metadata.entityTypeIds with
  | [] => .error (.jsError "EntityTypeIds array cannot be empty")
  | e0 :: _ =>
      .ok { eventKey :=
              { organizationId := projectInfo.organizationId
                projectId := projectInfo.projectId
                entityId := e0.entityId
                eventTypeDefinitionId := e0.entityTypeDefinitionId }
            value := value }

/-- State of class FifoQueue (message-source.ts): a plain items list and
the in-flight map keyed by message id. -/
structure FifoQueue where
  items : List StellaNowEventWrapper
  inFlight : List (String × StellaNowEventWrapper)
  deriving DecidableEq, Repr

/-- Freshly constructed FifoQueue: both containers empty. -/
def FifoQueue.empty : FifoQueue := { items := [], inFlight := [] }

/-- Method FifoQueue.enqueue: appends the event to the items list and
returns true. -/
def FifoQueue.enqueue (q : FifoQueue) (event : StellaNowEventWrapper) :
    FifoQueue × Bool :=
  ({ q with items := q.items ++ [event] }, true)

/-- Method FifoQueue.tryDequeue: shifts the head off the items list and,
when one is present, inserts it into the in-flight map under its
MessageId. -/
def FifoQueue.tryDequeue (q : FifoQueue) :
    FifoQueue × Option StellaNowEventWrapper :=
  match q.items with
  | [] => (q, none)
  | item :: rest =>
      ({ items := rest, inFlight := mapSet q.inFlight item.MessageId item },
       some item)

/-- Method FifoQueue.markMessageAck: deletes the id from the in-flight
map (Map.delete, a no-op on an absent key). -/
def FifoQueue.markMessageAck (q : FifoQueue) (eventId : String) : FifoQueue :=
  { q with inFlight := mapDelete q.inFlight eventId }

/-- Method FifoQueue.reEnqueueAll: enqueues every in-flight entry (in
Map insertion order, via forEach) and then clears the in-flight map. -/
def FifoQueue.reEnqueueAll (q : FifoQueue) : FifoQueue :=
  let q1 := q.inFlight.foldl (fun acc p => (acc.enqueue p.2).1) q
  { q1 with inFlight := [] }

/-- Method FifoQueue.isEmpty: whether the items list is empty. -/
def FifoQueue.isEmpty (q : FifoQueue) : Bool :=
  q.items.length == 0

/-- Method FifoQueue.numberInFlight: the size of the in-flight map. -/
def FifoQueue.numberInFlight (q : FifoQueue) : Nat :=
  q.inFlight.length

/-- Method FifoQueue.length: the length of the items list. -/
def FifoQueue.length (q : FifoQueue) : Nat :=
  q.items.length

/-- Batch bound of the SDK event loop (stella-now-sdk.ts): process up to
100 messages per cycle. -/
def batchSize : Nat := 100

/-- Drain loop of StellaNowSDK.eventLoop (stella-now-sdk.ts, lines
189-193): while the source is non-empty and the batch is below
batchSize, tryDequeue and push the event onto the batch.  The fuel
argument is the remaining batch capacity (batchSize minus the current
batch length), which the while condition bounds; the none branch cannot
occur on a non-empty queue. -/
def drainGo : Nat → FifoQueue → List StellaNowEventWrapper →
    FifoQueue × List StellaNowEventWrapper
  | 0, q, batch => (q, batch)
  | fuel + 1, q, batch =>
      if q.isEmpty = false then
        match q.tryDequeue with
        | (q1, some event) => drainGo fuel q1 (batch ++ [event])
        | (q1, none) => (q1, batch)
      else (q, batch)

/-- The batch-collection phase of one eventLoop iteration, started with
an empty batch and full capacity. -/
def drainBatch (q : FifoQueue) : FifoQueue × List StellaNowEventWrapper :=
  drainGo batchSize q []

/-- Publish phase of one eventLoop iteration (lines 195-206): each event
of the batch is published; a rejected publish is caught per event and
the event is enqueued again.  The oracle pub tells whether
sink.sendMessageAsync resolves for a given event. -/
def requeueFailed (pub : StellaNowEventWrapper → Bool)
    (batch : List StellaNowEventWrapper) (q : FifoQueue) : FifoQueue :=
  batch.foldl (fun acc event => if pub event then acc else (acc.enqueue event).1) q

/-- One iteration of StellaNowSDK.eventLoop (lines 178-207): skip when
the sink is not connected or the source is empty; otherwise drain a
batch and publish it, re-enqueueing each event whose publish rejects. -/
def eventLoop (connected : Bool) (pub : StellaNowEventWrapper → Bool)
    (q : FifoQueue) : FifoQueue :=
  if connected = false then q
  else if q.isEmpty then q
  else if 0 < (drainBatch q).2.length then
    requeueFailed pub (drainBatch q).2 (drainBatch q).1
  else (drainBatch q).1

/-- Method StellaNowSDK.sendEvent: enqueues the event into the source. -/
def sendEvent (q : FifoQueue) (event : StellaNowEventWrapper) : FifoQueue :=
  (q.enqueue event).1

/-- Method StellaNowSDK.sendMessage (stella-now-sdk.ts, lines 137-144):
wraps the message (assigning the fresh id and timestamp), derives the
event key via fromWrapper, and enqueues the resulting event; an error
thrown by fromWrapper propagates before any enqueue happens. -/
def sendMessage (projectInfo : StellaNowProjectInfo) (freshId nowUtc : String)
    (q : FifoQueue) (message : StellaNowMessageBase) :
    FifoQueue × Except SdkError Unit :=
  let wrappedMessage := StellaNowMessageWrapper.fromMessage freshId nowUtc message
  match StellaNowEventWrapper.fromWrapper projectInfo wrappedMessage with
  | .error e => (q, .error e)
  | .ok event => (sendEvent q event, .ok ())

/-- Alphabet of the public FifoQueue operations, used to state what can
happen to the queue between two points in time. -/
inductive QueueOp where
  | enqueueOp (event : StellaNowEventWrapper)
  | tryDequeueOp
  | markAckOp (eventId : String)
  | reEnqueueAllOp
  deriving DecidableEq, Repr

/-- Applies one public queue operation to the queue state. -/
def applyOp (q : FifoQueue) : QueueOp → FifoQueue
  | .enqueueOp event => (q.enqueue event).1
  | .tryDequeueOp => q.tryDequeue.1
  | .markAckOp eventId => q.markMessageAck eventId
  | .reEnqueueAllOp => q.reEnqueueAll

/-- Applies a sequence of public queue operations from left to right. -/
def applyOps (q : FifoQueue) (ops : List QueueOp) : FifoQueue :=
  ops.foldl applyOp q

/-- Whether an operation is one of those that can remove the given
message id from the in-flight map: markMessageAck of that very id, or
reEnqueueAll (which clears the map). -/
def QueueOp.keepsInFlightKey : QueueOp → String → Bool
  | .markAckOp j, eventId => j != eventId
  | .reEnqueueAllOp, _ => false
  | _, _ => true

/-- Listener registered on a StellaNowSignal.  Function identity is
modelled by the id field; throwsOnInvoke tells whether calling the
listener throws. -/
structure SignalListener where
  id : Nat
  throwsOnInvoke : Bool
  deriving DecidableEq, Repr

/-- State of class StellaNowSignal (stellanow-signal.ts): the
registered-listener list. -/
structure StellaNowSignal where
  listeners : List SignalListener
  deriving DecidableEq, Repr

/-- Method StellaNowSignal.subscribe (lines 158-162): pushes the
listener only when it is not already included. -/
def StellaNowSignal.subscribe (s : StellaNowSignal) (listener : SignalListener) :
    StellaNowSignal :=
  if s.listeners.contains listener then s
  else { listeners := s.listeners ++ [listener] }

/-- Method StellaNowSignal.unsubscribe (lines 168-170): filters out
every occurrence of the listener. -/
def StellaNowSignal.unsubscribe (s : StellaNowSignal) (listener : SignalListener) :
    StellaNowSignal :=
  { listeners := s.listeners.filter (fun l => l ≠ listener) }

/-- Semantics of listeners.forEach under the single try/catch of
trigger: listeners run in order; the first listener that throws aborts
the forEach (it is the last one invoked); the result is the list of
invoked listeners. -/
def runListeners : List SignalListener → List SignalListener
  | [] => []
  | l :: rest => if l.throwsOnInvoke then [l] else l :: runListeners rest

/-- Method StellaNowSignal.trigger (lines 176-182): runs the forEach
inside one try/catch, so trigger itself never throws; the returned list
records which listeners were invoked. -/
def StellaNowSignal.trigger (s : StellaNowSignal) : List SignalListener :=
  runListeners s.listeners

/-- Constant BaseReconnectDelayMs of StellaNowMqttSink: 5 seconds. -/
def BaseReconnectDelayMs : Nat := 5000

/-- Constant MaxReconnectDelayMs of StellaNowMqttSink: 60 seconds. -/
def MaxReconnectDelayMs : Nat := 60000

/-- Fixed poll interval of the monitor while connected: 2.5 seconds. -/
def ConnectedPollDelayMs : Nat := 2500

/-- State carried across iterations of
StellaNowMqttSink.startConnectionMonitor (mqtt-sink.ts, lines 300-337):
the consecutive-attempt counter and whether the client is connected. -/
structure MonitorState where
  attempt : Nat
  connected : Bool
  deriving DecidableEq, Repr

/-- One iteration of the startConnectionMonitor while loop, for a
started sink (mqttClient present) with no concurrent state change
inside the iteration.  When disconnected the counter is incremented and
an auth plus connect attempt is made (outcome given by the oracle
connectSucceeds); on success the counter resets and the monitor next
sleeps the short poll interval, on failure it sleeps
min(BaseReconnectDelayMs * 2 ^ (attempt - 1), MaxReconnectDelayMs).
Returns the next state and the slept delay in milliseconds. -/
def monitorIteration (s : MonitorState) (connectSucceeds : Bool) :
    MonitorState × Nat :=
  if s.connected = false then
    let attempt1 := s.attempt + 1
    if connectSucceeds then
      ({ attempt := 0, connected := true }, ConnectedPollDelayMs)
    else
      ({ attempt := attempt1, connected := false },
       min (BaseReconnectDelayMs * 2 ^ (attempt1 - 1)) MaxReconnectDelayMs)
  else (s, ConnectedPollDelayMs)

/-- Runs the monitor for one iteration per entry of the outcome list and
collects the slept delays. -/
def monitorRun : List Bool → MonitorState → List Nat
  | [], _ => []
  | r :: rest, s =>
      (monitorIteration s r).2 :: monitorRun rest (monitorIteration s r).1

/-- Cached OIDC discovery document (openid-client Configuration),
identified by its issuer. -/
structure DiscoveryConfig where
  issuer : String
  deriving DecidableEq, Repr

/-- Token endpoint response (openid-client TokenEndpointResponse): the
fields the strategy inspects. -/
structure TokenSet where
  accessToken : Option String
  refreshToken : Option String
  error : Option String
  deriving DecidableEq, Repr

/-- Mutable state of class OidcMqttAuthStrategy
(oidc-mqtt-auth-strategy.ts): the cached discovery configuration and
the current token response. -/
structure OidcState where
  configInstance : Option DiscoveryConfig
  tokenResponse : Option TokenSet
  deriving DecidableEq, Repr

/-- Network calls the strategy can make, recorded as a trace. -/
inductive GrantCall where
  | discoveryFetch
  | refreshGrant
  | passwordGrant
  deriving DecidableEq, Repr

/-- Oracle for the outcomes of the three network calls: discovery(),
refreshTokenGrant() and genericGrantRequest() with the password grant.
An error value means the awaited promise rejects with that message. -/
structure OidcWorld where
  discoveryResult : Except String DiscoveryConfig
  refreshGrantResult : Except String TokenSet
  passwordGrantResult : Except String TokenSet

/-- Method getDiscoveryDocumentResponse (lines 498-517): returns the
cached configuration when present; otherwise fetches it, caching the
result, or throws DiscoveryDocumentError after resetting the cache. -/
def getDiscoveryDocumentResponse (w : OidcWorld) (st : OidcState) :
    OidcState × List GrantCall × Except SdkError DiscoveryConfig :=
  match st.configInstance with
  | some c => (st, [], .ok c)
  | none =>
      match w.discoveryResult with
      | .ok c =>
          ({ st with configInstance := some c }, [.discoveryFetch], .ok c)
      | .error _ =>
          ({ st with configInstance := none }, [.discoveryFetch],
           .error (.discoveryDocumentError "Could not retrieve discovery document"))

/-- Method validateTokenResponse (lines 484-491): throws
TokenValidationError and clears tokenResponse when the response is
missing or carries an error field. -/
def validateTokenResponse (st : OidcState) (response : Option TokenSet) :
    OidcState × Except SdkError Unit :=
  match response with
  | none =>
      ({ st with tokenResponse := none },
       .error (.tokenValidationError "Invalid token response"))
  | some ts =>
      match ts.error with
      | some _ =>
          ({ st with tokenResponse := none },
           .error (.tokenValidationError "Invalid token response"))
      | none => (st, .ok ())

/-- Method loginAsync (lines 524-547): fetches the discovery document
(outside the try block, so a discovery failure propagates as
DiscoveryDocumentError), then performs the password grant; any error in
the grant or in validation is rethrown as
OidcAuthenticationError "Login failed". -/
def loginAsync (w : OidcWorld) (st : OidcState) :
    OidcState × List GrantCall × Except SdkError Unit :=
  match getDiscoveryDocumentResponse w st with
  | (st1, calls1, .error e) => (st1, calls1, .error e)
  | (st1, calls1, .ok _) =>
      match w.passwordGrantResult with
      | .error _ =>
          (st1, calls1 ++ [.passwordGrant],
           .error (.oidcAuthenticationError "Login failed"))
      | .ok ts =>
          let st2 := { st1 with tokenResponse := some ts }
          match validateTokenResponse st2 (some ts) with
          | (st3, .error _) =>
              (st3, calls1 ++ [.passwordGrant],
               .error (.oidcAuthenticationError "Login failed"))
          | (st3, .ok _) => (st3, calls1 ++ [.passwordGrant], .ok ())

/-- Method refreshTokensAsync (lines 554-581): returns false without any
network call when there is no cached token response, the cached one has
an error, or it has no refresh token.  Otherwise it fetches the
discovery document (outside the try block) and performs the
refresh-token grant; a failing grant or validation is rethrown as
OidcAuthenticationError "Token refresh failed"; on success it returns
true. -/
def refreshTokensAsync (w : OidcWorld) (st : OidcState) :
    OidcState × List GrantCall × Except SdkError Bool :=
  match st.tokenResponse with
  | none => (st, [], .ok false)
  | some ts =>
      if ts.error.isSome || ts.refreshToken.isNone then (st, [], .ok false)
      else
        match getDiscoveryDocumentResponse w st with
        | (st1, calls1, .error e) => (st1, calls1, .error e)
        | (st1, calls1, .ok _) =>
            match w.refreshGrantResult with
            | .error _ =>
                (st1, calls1 ++ [.refreshGrant],
                 .error (.oidcAuthenticationError "Token refresh failed"))
            | .ok ts2 =>
                let st2 := { st1 with tokenResponse := some ts2 }
                match validateTokenResponse st2 (some ts2) with
                | (st3, .error _) =>
                    (st3, calls1 ++ [.refreshGrant],
                     .error (.oidcAuthenticationError "Token refresh failed"))
                | (st3, .ok _) => (st3, calls1 ++ [.refreshGrant], .ok true)

/-- Method authenticate (lines 472-476): performs loginAsync exactly
when refreshTokensAsync returns false; an error thrown by
refreshTokensAsync propagates without any fallback. -/
def authenticate (w : OidcWorld) (st : OidcState) :
    OidcState × List GrantCall × Except SdkError Unit :=
  match refreshTokensAsync w st with
  | (st1, calls1, .error e) => (st1, calls1, .error e)
  | (st1, calls1, .ok true) => (st1, calls1, .ok ())
  | (st1, calls1, .ok false) =>
      match loginAsync w st1 with
      | (st2, calls2, r2) => (st2, calls1 ++ calls2, r2)

/-- Whether the cached token response would let refreshTokensAsync
attempt the refresh-token grant: a token response is cached, without an
error field and with a refresh token. -/
def hasUsableRefreshToken (st : OidcState) : Bool :=
  match st.tokenResponse with
  | none => false
  | some ts => ts.error.isNone && ts.refreshToken.isSome

/-- Iterated enqueue: the N enqueue calls of a test sequence. -/
def FifoQueue.enqueueAll (q : FifoQueue) (evs : List StellaNowEventWrapper) :
    FifoQueue :=
  evs.foldl (fun acc e => (acc.enqueue e).1) q

/-- Iterated tryDequeue: performs n tryDequeue calls and collects the
returned events in order, stopping early if the queue runs empty. -/
def dequeueList : FifoQueue → Nat → FifoQueue × List StellaNowEventWrapper
  | q, 0 => (q, [])
  | q, n + 1 =>
      match q.tryDequeue with
      | (q1, none) => (q1, [])
      | (q1, some e) =>
          match dequeueList q1 n with
          | (q2, rest) => (q2, e :: rest)

/-- Concrete event used by witnesses and counterexamples. -/
def sampleEvent : StellaNowEventWrapper :=
  { eventKey :=
      { organizationId := "org-1"
        projectId := "proj-1"
        entityId := "patron-1"
        eventTypeDefinitionId := "patron" }
    value :=
      { eventTypeDefinitionId := "user_login"
        metadata :=
          { messageId := "m-1"
            messageOriginDateUtc := "2025-01-01T00:00:00.000000Z"
            eventTypeDefinitionId := "user_login"
            entityTypeIds := [{ entityTypeDefinitionId := "patron", entityId := "patron-1" }] }
        payload := "payload-1" } }

/-- Concrete strategy state holding a cached, error-free token response
with a refresh token. -/
def cachedTokenState : OidcState :=
  { configInstance := some { issuer := "https://auth.example/realms/org-1" }
    tokenResponse := some { accessToken := some "t1", refreshToken := some "r1", error := none } }

/-- Concrete world in which the refresh-token grant rejects while
discovery and the password grant would succeed. -/
def refreshFailWorld : OidcWorld :=
  { discoveryResult := .ok { issuer := "https://auth.example/realms/org-1" }
    refreshGrantResult := .error "network error"
    passwordGrantResult := .ok { accessToken := some "t2", refreshToken := some "r2", error := none } }

lemma mapGet_cons {α : Type} (p : String × α) (m : List (String × α)) (id : String) :
    mapGet (p :: m) id = if p.1 == id then some p.2 else mapGet m id := by
  by_cases h : p.1 == id <;> simp [mapGet, List.find?_cons, h]

lemma mapGet_mapSet_self {α : Type} (m : List (String × α)) (k : String) (v : α) :
    mapGet (mapSet m k v) k = some v := by
  induction m with
  | nil => simp [mapSet, mapGet_cons]
  | cons p m ih =>
      by_cases hp : p.1 == k
      · simp [mapSet, hp, mapGet_cons]
      · simp [mapSet, hp, mapGet_cons, ih]

lemma mapGet_mapSet_ne {α : Type} (m : List (String × α)) (k id : String) (v : α)
    (h : (k == id) = false) :
    mapGet (mapSet m k v) id = mapGet m id := by
  induction m with
  | nil => simp [mapSet, mapGet_cons, h, mapGet]
  | cons p m ih =>
      by_cases hp : p.1 == k
      · have h1 : p.1 = k := by simpa using hp
        simp [mapSet, hp, mapGet_cons, h, h1]
      · simp [mapSet, hp, mapGet_cons, ih]

lemma mapGet_mapDelete_ne {α : Type} (m : List (String × α)) (j id : String)
    (h : (j == id) = false) :
    mapGet (mapDelete m j) id = mapGet m id := by
  induction m with
  | nil => simp [mapDelete]
  | cons p m ih =>
      by_cases hp : p.1 == j
      · have h1 : p.1 = j := by simpa using hp
        simp [mapDelete, hp, mapGet_cons, h, h1]
      · simp [mapDelete, hp, mapGet_cons, ih]

lemma mapDelete_of_get_none {α : Type} (m : List (String × α)) (k : String)
    (h : mapGet m k = none) :
    mapDelete m k = m := by
  induction m with
  | nil => simp [mapDelete]
  | cons p m ih =>
      rw [mapGet_cons] at h
      by_cases hp : p.1 == k
      · simp [hp] at h
      · simp [hp] at h
        simp [mapDelete, hp, ih h]

lemma enqueueAll_items (evs : List StellaNowEventWrapper) :
    ∀ q : FifoQueue, (q.enqueueAll evs).items = q.items ++ evs := by
  induction evs with
  | nil => intro q; simp [FifoQueue.enqueueAll]
  | cons e rest ih =>
      intro q
      have h := ih (q.enqueue e).1
      simp only [FifoQueue.enqueueAll, List.foldl_cons] at h ⊢
      rw [h]
      simp [FifoQueue.enqueue]

lemma enqueuePairFold_spec (l : List (String × StellaNowEventWrapper)) :
    ∀ q : FifoQueue,
      (l.foldl (fun acc p => (acc.enqueue p.2).1) q).items = q.items ++ l.map Prod.snd
      ∧ (l.foldl (fun acc p => (acc.enqueue p.2).1) q).inFlight = q.inFlight := by
  induction l with
  | nil => intro q; simp
  | cons p rest ih =>
      intro q
      have h := ih (q.enqueue p.2).1
      simp only [List.foldl_cons] at h ⊢
      refine ⟨?_, ?_⟩
      · rw [h.1]; simp [FifoQueue.enqueue]
      · rw [h.2]; simp [FifoQueue.enqueue]

lemma dequeueList_of_items (l : List StellaNowEventWrapper) :
    ∀ q : FifoQueue, q.items = l → (dequeueList q l.length).2 = l := by
  induction l with
  | nil => intro q h; simp [dequeueList]
  | cons e rest ih =>
      rintro ⟨items, fl⟩ h
      simp only at h
      subst h
      have h2 := ih ⟨rest, mapSet fl e.MessageId e⟩ rfl
      rcases hdq : dequeueList ⟨rest, mapSet fl e.MessageId e⟩ rest.length with ⟨q2, rest2⟩
      rw [hdq] at h2
      simp only at h2
      simp [dequeueList, FifoQueue.tryDequeue, hdq, h2]

/-- C2: for every sequence of N enqueue calls on a fresh FifoQueue
followed by N tryDequeue calls, with no other queue operations in
between, the sequence of events returned by tryDequeue equals the
sequence of events passed to enqueue, in the same order. -/
theorem fifo_enqueue_dequeue_order (evs : List StellaNowEventWrapper) :
    (dequeueList (FifoQueue.empty.enqueueAll evs) evs.length).2 = evs := by
  apply dequeueList_of_items
  simp [enqueueAll_items, FifoQueue.empty]

/-- C4: for every id not currently a key of the in-flight map,
markMessageAck is total (never throws) and leaves the queue state,
items and in-flight map alike, unchanged. -/
theorem markMessageAck_absent_noop (q : FifoQueue) (eventId : String)
    (h : mapGet q.inFlight eventId = none) :
    q.markMessageAck eventId = q := by
  cases q with
  | mk items fl =>
      simp only [FifoQueue.markMessageAck]
      simp [mapDelete_of_get_none _ _ h]

/-- Witness for C4 at a concrete input: the empty queue with an absent
id. -/
theorem markMessageAck_absent_noop_witness :
    mapGet (FifoQueue.empty).inFlight "missing-id" = none
    ∧ FifoQueue.empty.markMessageAck "missing-id" = FifoQueue.empty :=
  ⟨rfl, markMessageAck_absent_noop FifoQueue.empty "missing-id" rfl⟩

/-- C5: reEnqueueAll appends every in-flight entry (in insertion order)
to the tail of the queue, empties the in-flight map, and leaves
numberInFlight at 0. -/
theorem reEnqueueAll_spec (q : FifoQueue) :
    (q.reEnqueueAll).items = q.items ++ q.inFlight.map Prod.snd
    ∧ (q.reEnqueueAll).inFlight = []
    ∧ (q.reEnqueueAll).numberInFlight = 0 := by
  have h := enqueuePairFold_spec q.inFlight q
  refine ⟨?_, rfl, rfl⟩
  simp only [FifoQueue.reEnqueueAll]
  exact h.1

/-- C6: sendMessage on a message with an empty entityTypeIds list fails
with the error raised by the EventKey derivation
(StellaNowEventWrapper.fromWrapper) and enqueues nothing: the queue is
returned unchanged. -/
theorem sendMessage_empty_entityTypeIds (projectInfo : StellaNowProjectInfo)
    (freshId nowUtc : String) (q : FifoQueue) (message : StellaNowMessageBase)
    (h : message.entityTypeIds = []) :
    sendMessage projectInfo freshId nowUtc q message
      = (q, .error (.jsError "EntityTypeIds array cannot be empty")) := by
  simp [sendMessage, StellaNowMessageWrapper.fromMessage,
    StellaNowEventWrapper.fromWrapper, h]

/-- Witness for C6 at a concrete input: a message with no entity
references. -/
theorem sendMessage_empty_entityTypeIds_witness :
    sendMessage { organizationId := "org-1", projectId := "proj-1" } "m-9" "t0"
        FifoQueue.empty { eventTypeDefinitionId := "user_login", entityTypeIds := [], toJSONString := "p" }
      = (FifoQueue.empty, .error (.jsError "EntityTypeIds array cannot be empty")) :=
  sendMessage_empty_entityTypeIds _ _ _ _ _ rfl

lemma mapGet_isSome_mapSet {α : Type} (m : List (String × α)) (k id : String) (v : α)
    (h : (mapGet m id).isSome = true) :
    (mapGet (mapSet m k v) id).isSome = true := by
  by_cases hk : k == id
  · have h1 : k = id := by simpa using hk
    subst h1
    rw [mapGet_mapSet_self]
    rfl
  · rw [mapGet_mapSet_ne _ _ _ _ (by simpa using hk)]
    exact h

lemma keepsInFlight_step (q : FifoQueue) (op : QueueOp) (id : String)
    (hk : op.keepsInFlightKey id = true)
    (h : (mapGet q.inFlight id).isSome = true) :
    (mapGet (applyOp q op).inFlight id).isSome = true := by
  cases op with
  | enqueueOp e => simpa [applyOp, FifoQueue.enqueue] using h
  | tryDequeueOp =>
      rcases q with ⟨items, fl⟩
      cases items with
      | nil => simpa [applyOp, FifoQueue.tryDequeue] using h
      | cons e rest =>
          simp only [applyOp, FifoQueue.tryDequeue]
          exact mapGet_isSome_mapSet _ _ _ _ h
  | markAckOp j =>
      have hj : (j == id) = false := by
        simpa [QueueOp.keepsInFlightKey] using hk
      simp only [applyOp, FifoQueue.markMessageAck]
      rw [mapGet_mapDelete_ne _ _ _ hj]
      exact h
  | reEnqueueAllOp => simp [QueueOp.keepsInFlightKey] at hk

lemma keepsInFlight_ops (id : String) (ops : List QueueOp) :
    ∀ q : FifoQueue, (∀ op ∈ ops, op.keepsInFlightKey id = true) →
      (mapGet q.inFlight id).isSome = true →
      (mapGet (applyOps q ops).inFlight id).isSome = true := by
  induction ops with
  | nil => intro q _ h; simpa [applyOps] using h
  | cons op rest ih =>
      intro q hops h
      have h1 := keepsInFlight_step q op id (hops op (by simp)) h
      have h2 := ih (applyOp q op) (fun o ho => hops o (by simp [ho])) h1
      simpa [applyOps] using h2

/-- C3 (amended): after tryDequeue returns E, the items list is the tail
of the previous one (the dequeued occurrence of E is removed; E itself
may remain when it occurred more than once), E is stored in the
in-flight map under its message id, and that id stays in the in-flight
map across any sequence of further queue operations that contains
neither markMessageAck of that id nor reEnqueueAll. -/
theorem tryDequeue_inflight_spec (q : FifoQueue) (E : StellaNowEventWrapper)
    (h : q.tryDequeue.2 = some E) (ops : List QueueOp)
    (hops : ∀ op ∈ ops, op.keepsInFlightKey E.MessageId = true) :
    q.tryDequeue.1.items = q.items.tail
    ∧ mapGet q.tryDequeue.1.inFlight E.MessageId = some E
    ∧ (mapGet (applyOps q.tryDequeue.1 ops).inFlight E.MessageId).isSome = true := by
  rcases q with ⟨items, fl⟩
  cases items with
  | nil => simp [FifoQueue.tryDequeue] at h
  | cons e rest =>
      have he : e = E := by
        simpa [FifoQueue.tryDequeue] using h
      subst he
      refine ⟨by simp [FifoQueue.tryDequeue], ?_, ?_⟩
      · simp [FifoQueue.tryDequeue, mapGet_mapSet_self]
      · apply keepsInFlight_ops _ _ _ hops
        simp [FifoQueue.tryDequeue, mapGet_mapSet_self]

/-- Witness for C3 at a concrete input: a one-event queue, followed by a
further tryDequeue and an acknowledgment of a different id. -/
theorem tryDequeue_inflight_spec_witness :
    (FifoQueue.mk [sampleEvent] []).tryDequeue.1.items = []
    ∧ mapGet (FifoQueue.mk [sampleEvent] []).tryDequeue.1.inFlight sampleEvent.MessageId
        = some sampleEvent
    ∧ (mapGet (applyOps (FifoQueue.mk [sampleEvent] []).tryDequeue.1
          [.tryDequeueOp, .markAckOp "m-2"]).inFlight sampleEvent.MessageId).isSome = true :=
  tryDequeue_inflight_spec (FifoQueue.mk [sampleEvent] []) sampleEvent (by decide)
    [.tryDequeueOp, .markAckOp "m-2"] (by decide)

/-- Counterexample to C3 as stated: when the same event value occupies
two positions of the queue (a state reachable through a publish-failure
requeue followed by reEnqueueAll), tryDequeue returns E yet E is still
present in the items list. -/
theorem tryDequeue_removal_counterexample :
    (FifoQueue.mk [sampleEvent, sampleEvent] []).tryDequeue.2 = some sampleEvent
    ∧ sampleEvent ∈ (FifoQueue.mk [sampleEvent, sampleEvent] []).tryDequeue.1.items := by
  decide

lemma drainGo_spec :
    ∀ (fuel : Nat) (items : List StellaNowEventWrapper)
      (fl : List (String × StellaNowEventWrapper)) (batch : List StellaNowEventWrapper),
      drainGo fuel ⟨items, fl⟩ batch
        = (⟨items.drop (min fuel items.length),
            (items.take (min fuel items.length)).foldl
              (fun m e => mapSet m e.MessageId e) fl⟩,
           batch ++ items.take (min fuel items.length)) := by
  intro fuel
  induction fuel with
  | zero => intro items fl batch; simp [drainGo]
  | succ fuel ih =>
      intro items fl batch
      cases items with
      | nil => simp [drainGo, FifoQueue.isEmpty]
      | cons e rest =>
          have hk : min (fuel + 1) (rest.length + 1) = min fuel rest.length + 1 := by
            omega
          simp only [drainGo, FifoQueue.isEmpty, FifoQueue.tryDequeue, List.length_cons]
          rw [ih rest (mapSet fl e.MessageId e) (batch ++ [e])]
          simp [hk]

lemma requeueFold_spec (pub : StellaNowEventWrapper → Bool)
    (batch : List StellaNowEventWrapper) :
    ∀ q : FifoQueue,
      (requeueFailed pub batch q).items = q.items ++ batch.filter (fun e => !pub e)
      ∧ (requeueFailed pub batch q).inFlight = q.inFlight := by
  induction batch with
  | nil => intro q; simp [requeueFailed]
  | cons e rest ih =>
      intro q
      by_cases hp : pub e = true
      · have h := ih q
        simp only [requeueFailed, List.foldl_cons] at h ⊢
        rw [if_pos hp]
        simpa [List.filter_cons, hp] using h
      · have h := ih (q.enqueue e).1
        simp only [requeueFailed, List.foldl_cons] at h ⊢
        rw [if_neg hp]
        refine ⟨?_, ?_⟩
        · rw [h.1]; simp [FifoQueue.enqueue, List.filter_cons, hp]
        · rw [h.2]; simp [FifoQueue.enqueue]

lemma foldl_mapSet_get_notmem (id : String) (l : List StellaNowEventWrapper) :
    ∀ m, (∀ e ∈ l, (e.MessageId == id) = false) →
      mapGet (l.foldl (fun m e => mapSet m e.MessageId e) m) id = mapGet m id := by
  induction l with
  | nil => intro m _; simp
  | cons a rest ih =>
      intro m hall
      simp only [List.foldl_cons]
      rw [ih (mapSet m a.MessageId a) (fun e he => hall e (by simp [he]))]
      exact mapGet_mapSet_ne _ _ _ _ (hall a (by simp))

lemma foldl_mapSet_get_mem (E : StellaNowEventWrapper)
    (l : List StellaNowEventWrapper) :
    ∀ m, E ∈ l → (l.map StellaNowEventWrapper.MessageId).Nodup →
      mapGet (l.foldl (fun m e => mapSet m e.MessageId e) m) E.MessageId = some E := by
  induction l with
  | nil => intro m hm _; simp at hm
  | cons a rest ih =>
      intro m hm hnodup
      rw [List.map_cons, List.nodup_cons] at hnodup
      rcases List.mem_cons.mp hm with hEa | hErest
      · subst hEa
        simp only [List.foldl_cons]
        rw [foldl_mapSet_get_notmem _ rest _ ?hne]
        · exact mapGet_mapSet_self _ _ _
        case hne =>
          intro e he
          have hne2 : e.MessageId ≠ E.MessageId := by
            intro hc
            exact hnodup.1 (hc ▸ List.mem_map_of_mem StellaNowEventWrapper.MessageId he)
          simpa using hne2
      · simp only [List.foldl_cons]
        exact ih (mapSet m a.MessageId a) hErest hnodup.2

/-- C1 (amended): every event E that the event-loop iteration dequeues
and whose publish rejects is enqueued again (E is present in the items
list afterwards, findable by its message id) and it also REMAINS in the
in-flight map under its message id — the code does not remove a
requeued event from in-flight; only a later acknowledgment or
reEnqueueAll does.  In particular E is never dropped.  Message ids are
assumed pairwise distinct in the queue, which the wrap-time UUID
assignment guarantees. -/
theorem eventLoop_publish_failure_requeue (pub : StellaNowEventWrapper → Bool)
    (q : FifoQueue) (E : StellaNowEventWrapper)
    (hnodup : (q.items.map StellaNowEventWrapper.MessageId).Nodup)
    (hE : E ∈ (drainBatch q).2) (hfail : pub E = false) :
    E ∈ (eventLoop true pub q).items
    ∧ mapGet (eventLoop true pub q).inFlight E.MessageId = some E := by
  rcases q with ⟨items, fl⟩
  cases items with
  | nil =>
      have h0 : (drainBatch (⟨[], fl⟩ : FifoQueue)).2 = [] := rfl
      rw [h0] at hE
      simp at hE
  | cons e rest =>
      have hd := drainGo_spec batchSize (e :: rest) fl []
      rw [List.nil_append] at hd
      have hd2 : drainBatch ⟨e :: rest, fl⟩
          = (⟨(e :: rest).drop (min batchSize ((e :: rest).length)),
              ((e :: rest).take (min batchSize ((e :: rest).length))).foldl
                (fun m ev => mapSet m ev.MessageId ev) fl⟩,
             (e :: rest).take (min batchSize ((e :: rest).length))) := hd
      have hE2 : E ∈ (e :: rest).take (min batchSize ((e :: rest).length)) := by
        rw [hd2] at hE
        exact hE
      have hk1 : 1 ≤ min batchSize ((e :: rest).length) := by
        simp only [List.length_cons, batchSize]
        omega
      have hlen : 0 < ((e :: rest).take (min batchSize ((e :: rest).length))).length := by
        rw [List.length_take]
        omega
      have hev : eventLoop true pub ⟨e :: rest, fl⟩
          = requeueFailed pub ((e :: rest).take (min batchSize ((e :: rest).length)))
              ⟨(e :: rest).drop (min batchSize ((e :: rest).length)),
               ((e :: rest).take (min batchSize ((e :: rest).length))).foldl
                 (fun m ev => mapSet m ev.MessageId ev) fl⟩ := by
        unfold eventLoop
        rw [if_neg (by simp)]
        rw [if_neg (by simp [FifoQueue.isEmpty])]
        rw [hd2]
        dsimp only
        rw [if_pos hlen]
      rw [hev]
      have hrq := requeueFold_spec pub ((e :: rest).take (min batchSize ((e :: rest).length)))
        ⟨(e :: rest).drop (min batchSize ((e :: rest).length)),
         ((e :: rest).take (min batchSize ((e :: rest).length))).foldl
           (fun m ev => mapSet m ev.MessageId ev) fl⟩
      constructor
      · rw [hrq.1]
        apply List.mem_append_right
        exact List.mem_filter.mpr ⟨hE2, by simp [hfail]⟩
      · rw [hrq.2]
        apply foldl_mapSet_get_mem _ _ _ hE2
        rw [List.map_take]
        exact List.Nodup.sublist (List.take_sublist _ _) hnodup

/-- Witness for C1 (amended) at a concrete input: a one-event queue and
a sink whose publish always rejects. -/
theorem eventLoop_publish_failure_requeue_witness :
    sampleEvent ∈ (eventLoop true (fun _ => false) (FifoQueue.mk [sampleEvent] [])).items
    ∧ mapGet (eventLoop true (fun _ => false) (FifoQueue.mk [sampleEvent] [])).inFlight
        sampleEvent.MessageId = some sampleEvent :=
  eventLoop_publish_failure_requeue (fun _ => false) (FifoQueue.mk [sampleEvent] [])
    sampleEvent (by decide) (by decide) rfl

/-- Counterexample to C1 as stated: after a failed publish the event is
back in the queue but NOT absent from the in-flight map — its message
id is still mapped there. -/
theorem eventLoop_inflight_counterexample :
    (eventLoop true (fun _ => false) (FifoQueue.mk [sampleEvent] [])).items = [sampleEvent]
    ∧ ¬ mapGet (eventLoop true (fun _ => false) (FifoQueue.mk [sampleEvent] [])).inFlight
          sampleEvent.MessageId = none := by
  decide

/-- C7: for every consecutive-failure count of at least 1, the monitor
sleeps min(5000 * 2 ^ (attempt - 1), 60000) milliseconds, the delay
sequence over consecutive failures from a fresh monitor is 5000, 10000,
20000, 40000, 60000, 60000, and a successful connection attempt resets
the counter to 0. -/
theorem monitor_backoff_spec :
    (∀ attempt : Nat, 1 ≤ attempt →
        (monitorIteration { attempt := attempt - 1, connected := false } false).2
          = min (BaseReconnectDelayMs * 2 ^ (attempt - 1)) MaxReconnectDelayMs)
    ∧ monitorRun [false, false, false, false, false, false]
        { attempt := 0, connected := false }
        = [5000, 10000, 20000, 40000, 60000, 60000]
    ∧ (∀ s : MonitorState, s.connected = false →
        (monitorIteration s true).1 = { attempt := 0, connected := true }) := by
  refine ⟨?_, by decide, ?_⟩
  · intro attempt h
    simp [monitorIteration]
  · intro s hs
    simp [monitorIteration, hs]

/-- Witness for C7 at concrete inputs: the fifth consecutive failure and
a successful attempt after two failures. -/
theorem monitor_backoff_spec_witness :
    (monitorIteration { attempt := 4, connected := false } false).2
        = min (BaseReconnectDelayMs * 2 ^ 4) MaxReconnectDelayMs
    ∧ (monitorIteration { attempt := 2, connected := false } true).1
        = { attempt := 0, connected := true } :=
  ⟨monitor_backoff_spec.1 5 (by decide),
   monitor_backoff_spec.2.2 { attempt := 2, connected := false } rfl⟩

lemma runListeners_eq (l : List SignalListener) :
    runListeners l = l.takeWhile (fun x => !x.throwsOnInvoke)
      ++ (l.dropWhile (fun x => !x.throwsOnInvoke)).take 1 := by
  induction l with
  | nil => simp [runListeners]
  | cons a rest ih =>
      by_cases ha : a.throwsOnInvoke
      · simp [runListeners, ha, List.takeWhile_cons, List.dropWhile_cons]
      · simp [runListeners, ha, List.takeWhile_cons, List.dropWhile_cons, ih]

lemma runListeners_all (l : List SignalListener)
    (hall : ∀ x ∈ l, x.throwsOnInvoke = false) : runListeners l = l := by
  induction l with
  | nil => rfl
  | cons a rest ih =>
      simp [runListeners, hall a (by simp),
        ih (fun x hx => hall x (by simp [hx]))]

/-- C9 (amended): trigger invokes the listeners in order up to and
including the first listener that throws; the exception is swallowed by
the surrounding try/catch (trigger itself never throws, being total
here), but the listeners after the first throwing one are NOT invoked.
When no registered listener throws, every listener is invoked. -/
theorem trigger_invocation_spec (s : StellaNowSignal) :
    s.trigger = s.listeners.takeWhile (fun l => !l.throwsOnInvoke)
      ++ (s.listeners.dropWhile (fun l => !l.throwsOnInvoke)).take 1
    ∧ ((∀ l ∈ s.listeners, l.throwsOnInvoke = false) → s.trigger = s.listeners) :=
  ⟨runListeners_eq s.listeners, fun hall => runListeners_all s.listeners hall⟩

/-- Witness for C9 (amended) at a concrete input: two non-throwing
listeners are both invoked. -/
theorem trigger_invocation_spec_witness :
    (StellaNowSignal.mk [⟨0, false⟩, ⟨1, false⟩]).trigger
      = [⟨0, false⟩, ⟨1, false⟩] :=
  (trigger_invocation_spec (StellaNowSignal.mk [⟨0, false⟩, ⟨1, false⟩])).2 (by decide)

/-- Counterexample to C9 as stated: with a throwing first listener, the
second subscribed listener is never invoked, so trigger does not invoke
every listener and there is no per-listener failure isolation. -/
theorem trigger_isolation_counterexample :
    (StellaNowSignal.mk [⟨0, true⟩, ⟨1, false⟩]).trigger = [⟨0, true⟩]
    ∧ (⟨1, false⟩ : SignalListener) ∈ (StellaNowSignal.mk [⟨0, true⟩, ⟨1, false⟩]).listeners
    ∧ (⟨1, false⟩ : SignalListener) ∉ (StellaNowSignal.mk [⟨0, true⟩, ⟨1, false⟩]).trigger := by
  decide

lemma subscribe_mem (s : StellaNowSignal) (l : SignalListener) :
    l ∈ (s.subscribe l).listeners := by
  by_cases hm : l ∈ s.listeners <;> simp [StellaNowSignal.subscribe, hm]

lemma subscribe_count (s : StellaNowSignal) (l : SignalListener)
    (h : s.listeners.count l ≤ 1) : (s.subscribe l).listeners.count l = 1 := by
  by_cases hm : l ∈ s.listeners
  · have h1 : 0 < s.listeners.count l := List.count_pos_iff.mpr hm
    simp only [StellaNowSignal.subscribe]
    rw [if_pos (by simpa using hm)]
    omega
  · have h0 : s.listeners.count l = 0 := List.count_eq_zero.mpr hm
    simp [StellaNowSignal.subscribe, hm, h0]

/-- C10: subscribing the same listener twice is idempotent — the second
subscribe leaves the listener list unchanged; a subsequent trigger (on a
signal whose listeners all return normally) invokes the listener exactly
once; and a single unsubscribe removes the listener entirely.  The
hypothesis that the listener occurs at most once covers every state
reachable through subscribe. -/
theorem subscribe_idempotent (s : StellaNowSignal) (l : SignalListener)
    (hcount : s.listeners.count l ≤ 1)
    (hnothrow : ∀ x ∈ (s.subscribe l).listeners, x.throwsOnInvoke = false) :
    (s.subscribe l).subscribe l = s.subscribe l
    ∧ ((s.subscribe l).subscribe l).trigger.count l = 1
    ∧ (((s.subscribe l).subscribe l).unsubscribe l).listeners.count l = 0 := by
  have hidem : (s.subscribe l).subscribe l = s.subscribe l := by
    by_cases hm0 : l ∈ s.listeners
    · simp [StellaNowSignal.subscribe, hm0]
    · simp [StellaNowSignal.subscribe, hm0]
  refine ⟨hidem, ?_, ?_⟩
  · rw [hidem]
    have htr : (s.subscribe l).trigger = (s.subscribe l).listeners :=
      runListeners_all _ hnothrow
    rw [htr]
    exact subscribe_count s l hcount
  · rw [hidem]
    apply List.count_eq_zero.mpr
    intro hmemf
    have := List.mem_filter.mp hmemf
    simp at this

/-- Witness for C10 at a concrete input: a fresh signal and one
non-throwing listener. -/
theorem subscribe_idempotent_witness :
    ((StellaNowSignal.mk []).subscribe ⟨0, false⟩).subscribe ⟨0, false⟩
        = (StellaNowSignal.mk []).subscribe ⟨0, false⟩
    ∧ (((StellaNowSignal.mk []).subscribe ⟨0, false⟩).subscribe ⟨0, false⟩).trigger.count
        ⟨0, false⟩ = 1
    ∧ ((((StellaNowSignal.mk []).subscribe ⟨0, false⟩).subscribe ⟨0, false⟩).unsubscribe
        ⟨0, false⟩).listeners.count ⟨0, false⟩ = 0 :=
  subscribe_idempotent (StellaNowSignal.mk []) ⟨0, false⟩ (by decide) (by decide)

/-- C8 (amended): authenticate attempts the refresh-token grant first
exactly when a cached, error-free token response with a refresh token
exists; when no such token exists it behaves exactly as a fresh
resource-owner-password login.  When a usable refresh token exists,
authenticate never performs the password grant — in particular a
FAILING refresh-token grant raises a typed authentication failure with
no fallback to the password grant.  Whenever authenticate returns
successfully, the strategy holds a validated, error-free token
response. -/
theorem authenticate_spec (w : OidcWorld) (st : OidcState) :
    (hasUsableRefreshToken st = false → authenticate w st = loginAsync w st)
    ∧ (hasUsableRefreshToken st = true →
        GrantCall.passwordGrant ∉ (authenticate w st).2.1)
    ∧ (GrantCall.refreshGrant ∈ (authenticate w st).2.1 →
        hasUsableRefreshToken st = true)
    ∧ ((authenticate w st).2.2 = .ok () →
        ∃ ts, (authenticate w st).1.tokenResponse = some ts ∧ ts.error = none) := by
  rcases st with ⟨cfg, tok⟩
  rcases w with ⟨dr, rr, pr⟩
  rcases tok with _ | ⟨acc, rt, er⟩ <;>
    (try rcases er with _ | er) <;>
    (try rcases rt with _ | rt) <;>
    rcases cfg with _ | c <;>
    rcases dr with de | dc <;>
    rcases rr with re | ⟨acc2, rt2, er2⟩ <;>
    rcases pr with pe | ⟨acc3, rt3, er3⟩ <;>
    (try rcases er2 with _ | er2) <;>
    (try rcases er3 with _ | er3) <;>
    simp [authenticate, refreshTokensAsync, loginAsync, getDiscoveryDocumentResponse,
      validateTokenResponse, hasUsableRefreshToken]

/-- Witness for C8 (amended) at a concrete input: with no cached token,
authenticate coincides with the password-grant login. -/
theorem authenticate_spec_witness :
    authenticate refreshFailWorld { configInstance := none, tokenResponse := none }
      = loginAsync refreshFailWorld { configInstance := none, tokenResponse := none } :=
  (authenticate_spec refreshFailWorld
    { configInstance := none, tokenResponse := none }).1 rfl

/-- Counterexample to C8 as stated: with a cached refresh token and a
rejecting refresh-token grant, authenticate raises
OidcAuthenticationError and never falls back to the password grant. -/
theorem authenticate_no_fallback_counterexample :
    (authenticate refreshFailWorld cachedTokenState).2.2
        = .error (.oidcAuthenticationError "Token refresh failed")
    ∧ GrantCall.passwordGrant ∉ (authenticate refreshFailWorld cachedTokenState).2.1 :=
  ⟨rfl, by decide⟩

end StellaNow
